import Mathlib

/-!
# deploybot-service-launcher: task dispatch and container replacement

A shallow embedding of `task/scheduler.go`, `task/runner.go` and
`util/containerHelper.go`.

* Go maps are association lists with unique keys (`AList`); a `nil` map is `none`.
  Their iteration order is the order of the entries, which is arbitrary.
* The container engine, the control plane and the JSON codec are external: their
  answers are fields of `Env`.
* Goroutines are threads of a step function `step`; a schedule is the list of the
  threads that move, one source statement at a time.
* Time is left out: an armed timer may fire at any moment until it is stopped, and
  every call may take arbitrarily long. What holds under every schedule holds for
  every timing.
-/

namespace Launcher

/-! ## Data model -/

/-- A Go `map[string]V`: finite, keys unique. -/
abbrev GoMap (V : Type) := AList (fun _ : String => V)

/-- Modelled from the spec: the status constants `model.TaskInProgress`, `model.TaskDone`,
`model.TaskFailed`, `model.TaskTimedOut` of the control-plane package (not in the
repository), as the enumeration of spec section 3. -/
inductive TaskStatus where
  | Pending
  | InProgress
  | Done
  | Failed
  | TimedOut
  deriving DecidableEq, Repr

/-- The restart policy of a `DeployConfig`. -/
structure RestartPolicy where
  Name : String
  MaximumRetryCount : Int
  deriving DecidableEq, Repr

/-- Modelled from the spec: the struct `DeployConfig` (declared outside the repository), with
the fields `StartContainer` reads. -/
structure DeployConfig where
  ServiceName : String
  ImageName : String
  ImageTag : String
  Env : List String
  RestartPolicy : RestartPolicy
  AutoRemove : Bool
  Ports : Option (GoMap String)
  VolumeMounts : Option (GoMap String)
  NetworkName : String
  NetworkId : String

/-- The port binding `nat.PortBinding`. -/
structure PortBinding where
  HostPort : String
  HostIP : String
  deriving DecidableEq, Repr

/-- The bind mount `mount.Mount` with `Type: mount.TypeBind`. -/
structure Mount where
  Source : String
  Target : String
  deriving DecidableEq, Repr

/-- The fields of `container.Config` that `StartContainer` sets. -/
structure ContainerConfig where
  Image : String
  Env : List String
  ExposedPorts : Option (GoMap Unit)

/-- The fields of `container.HostConfig` that `StartContainer` sets. -/
structure HostConfig where
  AutoRemove : Bool
  RestartPolicy : RestartPolicy
  PortBindings : Option (GoMap (List PortBinding))
  Mounts : List Mount

/-- The `network.NetworkingConfig`: endpoint name and network id when attached. -/
structure NetworkingConfig where
  EndpointsConfig : Option (String × String)
  deriving DecidableEq, Repr

/-- One call to the container engine client `h.cli`. -/
inductive EngineCall where
  | stop (name : String)
  | remove (name : String)
  | pull (ref : String)
  | create (c : ContainerConfig) (h : HostConfig) (n : NetworkingConfig) (name : String)
  | start (id : String)

/-- The answers of the container engine to the calls of one `StartContainer` run:
whether stop, remove, pull and start return an error, and the id of the created
container (`none` when create returns an error). -/
structure Engine where
  stopErr : Bool
  removeErr : Bool
  pullErr : Bool
  created : Option String
  startErr : Bool
  deriving DecidableEq, Repr

/-! ## `util/containerHelper.go` -/

/-- The loop `for e := range cfg.Ports { cConfig.ExposedPorts[nat.Port(e+"/tcp")] = struct{}{} }`. -/
def exposedPorts (ports : GoMap String) : GoMap Unit :=
  ports.entries.foldl (fun m e => m.insert (e.1 ++ "/tcp") ()) ∅

/-- The loop `for e, h := range cfg.Ports { hConfig.PortBindings[nat.Port(e+"/tcp")] = ... }`. -/
def portBindings (ports : GoMap String) : GoMap (List PortBinding) :=
  ports.entries.foldl
    (fun m e => m.insert (e.1 ++ "/tcp") [{ HostPort := e.2, HostIP := "" }]) ∅

/-- The name of the restart policy after lines 57-59. -/
def restartPolicyName (cfg : DeployConfig) : String :=
  if cfg.RestartPolicy.Name = "" then "on-failure" else cfg.RestartPolicy.Name

/-- The `cConfig` of `StartContainer` at the create call. -/
def containerConfig (cfg : DeployConfig) : ContainerConfig :=
  { Image := cfg.ImageName ++ ":" ++ cfg.ImageTag
    Env := cfg.Env
    ExposedPorts := cfg.Ports.map exposedPorts }

/-- The `hConfig` of `StartContainer` at the create call. -/
def hostConfig (cfg : DeployConfig) : HostConfig :=
  { AutoRemove := cfg.AutoRemove
    RestartPolicy :=
      { Name := restartPolicyName cfg
        MaximumRetryCount := cfg.RestartPolicy.MaximumRetryCount }
    PortBindings := cfg.Ports.map portBindings
    Mounts :=
      match cfg.VolumeMounts with
      | none => []
      | some vs => vs.entries.map (fun e => { Source := e.1, Target := e.2 }) }

/-- The `nConfig` of `StartContainer` at the create call. -/
def networkingConfig (cfg : DeployConfig) : NetworkingConfig :=
  { EndpointsConfig :=
      if cfg.NetworkName ≠ "" ∧ cfg.NetworkId ≠ "" then
        some (cfg.NetworkName, cfg.NetworkId)
      else none }

/-- The create call of `StartContainer`. -/
def createCall (cfg : DeployConfig) : EngineCall :=
  .create (containerConfig cfg) (hostConfig cfg) (networkingConfig cfg) cfg.ServiceName

/-- The method `ContainerHelper.StartContainer`: the engine calls it issues, in order, and
whether it ran to the end (`true`) or returned early after logging an error. The
results of stop and remove are discarded by the source. -/
def StartContainer (eng : Engine) (cfg : DeployConfig) : List EngineCall × Bool :=
  let t0 : List EngineCall :=
    [.stop cfg.ServiceName, .remove cfg.ServiceName,
     .pull (cfg.ImageName ++ ":" ++ cfg.ImageTag)]
  if eng.pullErr then (t0, false)
  else
    let t1 := t0 ++ [createCall cfg]
    match eng.created with
    | none => (t1, false)
    | some id =>
      let t2 := t1 ++ [.start id]
      if eng.startErr then (t2, false) else (t2, true)

/-! ## `task/runner.go` and `task/scheduler.go` -/

/-- Modelled from the spec: the payload of `model.StreamWebhook` (declared outside the
repository): pipeline identifier, task identifier (both as their hex strings) and
argument list. -/
structure WebhookPayload where
  PipelineId : String
  TaskId : String
  Arguments : List String
  deriving DecidableEq, Repr

/-- Modelled from the spec: the struct `model.StreamWebhook` (declared outside the
repository). -/
structure StreamWebhook where
  Payload : WebhookPayload
  deriving DecidableEq, Repr

/-- Modelled from the spec: the struct `Task` (declared outside the repository) with the
fields the handler and `DoTask` read; `Config` is the undecoded configuration
payload, `Timeout` is in minutes. -/
structure Task where
  Id : String
  Config : String
  Timeout : Int
  deriving DecidableEq, Repr

/-- The outcome of `http.DefaultClient.Do(req)` for the task lookup followed by the decoding
of the response body: a transport error, or a response with its status code and
the task that `json.Unmarshal` leaves in `tRes.Payload.Task`. -/
inductive FetchResult where
  | transportError (msg : String)
  | response (statusCode : Nat) (task : Task)
  deriving DecidableEq, Repr

/-- The body `api.WebhookResponse` of an acknowledgment. -/
structure WebhookResponse where
  Msg : String
  Code : Int
  deriving DecidableEq, Repr

/-- The acknowledgment written by `ctx.JSON(status, body)`. -/
structure Ack where
  status : Nat
  body : WebhookResponse
  deriving DecidableEq, Repr

/-- The world outside the launcher, for one dispatch.

* `decodeWebhook body`: the value `json.Unmarshal(body, &sw)` leaves in `sw`, and
  whether it returned an error;
* `fetchTask pid tid`: the answer to `GET /task?pid=..&id=..`;
* `marshalConfig`, `unmarshalConfig`: `json.Marshal(t.Config)` and
  `json.Unmarshal(bs, &c)` in `DoTask`, `none` when they return an error;
* `engine`: the answers of the container engine;
* `CodeServerError`, `CodeClientError`, `MsgClientError`: the constants of the
  package `api` (declared outside the repository). -/
structure Env where
  decodeWebhook : String → StreamWebhook × Bool
  fetchTask : String → String → FetchResult
  marshalConfig : String → Option String
  unmarshalConfig : String → Option DeployConfig
  engine : Engine
  CodeServerError : Int
  CodeClientError : Int
  MsgClientError : String

/-- An observable action of one dispatch. -/
inductive Event where
  | fetch (pid tid : String)
  | armTimer (minutes : Int)
  | report (pid tid : String) (st : TaskStatus)
  | goStartContainer
  | stopTimer
  | engine (c : EngineCall)

/-- The status carried by a status-update call. -/
def Event.statusOf : Event → Option TaskStatus
  | .report _ _ st => some st
  | _ => none

/-- The statuses reported in a trace, in order. -/
def statuses (tr : List Event) : List TaskStatus :=
  tr.filterMap Event.statusOf

/-- The shape of an event, without its arguments. -/
inductive Kind where
  | fetch
  | armTimer
  | status (st : TaskStatus)
  | goStartContainer
  | stopTimer
  | stop
  | remove
  | pull
  | create
  | start
  deriving DecidableEq, Repr

/-- The shape of an event. -/
def Event.kind : Event → Kind
  | .fetch _ _ => .fetch
  | .armTimer _ => .armTimer
  | .report _ _ st => .status st
  | .goStartContainer => .goStartContainer
  | .stopTimer => .stopTimer
  | .engine (.stop _) => .stop
  | .engine (.remove _) => .remove
  | .engine (.pull _) => .pull
  | .engine (.create _ _ _ _) => .create
  | .engine (.start _) => .start

/-- The method `Runner.DoTask`: `none` when it returns an error (the configuration does not
re-encode as a `DeployConfig`), `some c` when it returns `nil` after starting
`StartContainer(&c)` in a goroutine of its own. -/
def DoTask (env : Env) (t : Task) : Option DeployConfig :=
  match env.marshalConfig t.Config with
  | none => none
  | some bs =>
    match env.unmarshalConfig bs with
    | none => none
    | some c => some c

/-- Where the goroutine of lines 121-135 stands. -/
inductive DeployPc where
  | atInProgress
  | atDoTask
  | atStop (err : Bool)
  | atReport (err : Bool)
  | finished
  deriving DecidableEq, Repr

/-- The timer of `cleanUp`: `absent` is `timer == nil`; `fired` means the runtime has sent on
`t.C` and the job has not run yet; `ran` means the job has run. -/
inductive TimerSt where
  | absent
  | armed
  | fired
  | ran
  | stopped
  deriving DecidableEq, Repr

/-- The call `timer.Stop()`: it keeps an armed timer from firing and does not undo a firing.
A runtime that discards a value sent and not yet received behaves as if the timer
had still been armed, which is the first case. -/
def TimerSt.stop : TimerSt → TimerSt
  | .armed => .stopped
  | t => t

/-- The state of one dispatch after the handler has started its goroutine: the captured
variables `sw.Payload.PipelineId` and `task`, the three threads, and the trace so
far. `container` is `none` until `DoTask` starts `StartContainer`, then the calls
that goroutine has still to issue. -/
structure Sys where
  pid : String
  task : Task
  deploy : DeployPc
  timer : TimerSt
  container : Option (List EngineCall)
  trace : List Event

/-- What one call of the handler leaves behind: the acknowledgment, the actions done before
it, and the dispatch it started, if any. -/
structure HandlerResult where
  ack : Ack
  trace : List Event
  spawned : Option Sys

/-- The handler returned by `Scheduler.StreamWebhookHandler`, up to its acknowledgment. The
error of decoding the body is discarded (line 84). -/
def StreamWebhookHandler (env : Env) (body : String) : HandlerResult :=
  let sw := (env.decodeWebhook body).1
  let t0 : List Event := [.fetch sw.Payload.PipelineId sw.Payload.TaskId]
  match env.fetchTask sw.Payload.PipelineId sw.Payload.TaskId with
  | .transportError msg =>
    { ack := ⟨400, ⟨msg, env.CodeServerError⟩⟩, trace := t0, spawned := none }
  | .response code task =>
    if code ≠ 200 then
      { ack := ⟨400, ⟨env.MsgClientError, env.CodeClientError⟩⟩, trace := t0, spawned := none }
    else
      let t1 : List Event := if task.Timeout > 0 then t0 ++ [.armTimer task.Timeout] else t0
      { ack := ⟨200, ⟨"", 0⟩⟩
        trace := t1
        spawned := some
          { pid := sw.Payload.PipelineId
            task := task
            deploy := .atInProgress
            timer := if task.Timeout > 0 then .armed else .absent
            container := none
            trace := t1 } }

/-- The threads of a dispatch: the goroutine of lines 121-135, the runtime firing the timer,
the goroutine of `cleanUp` running the job, and the goroutine of `DoTask` running
`StartContainer`. -/
inductive Label where
  | deploy
  | fire
  | job
  | container
  deriving DecidableEq, Repr

/-- One step of one thread; `none` when that thread cannot move. -/
def step (env : Env) (s : Sys) : Label → Option Sys
  | .deploy =>
    match s.deploy with
    | .atInProgress =>
      some { s with deploy := .atDoTask
                    trace := s.trace ++ [.report s.pid s.task.Id .InProgress] }
    | .atDoTask =>
      match DoTask env s.task with
      | none => some { s with deploy := .atStop true }
      | some c =>
        some { s with deploy := .atStop false
                      container := some (StartContainer env.engine c).1
                      trace := s.trace ++ [.goStartContainer] }
    | .atStop err =>
      if s.timer = .absent then some { s with deploy := .atReport err }
      else
        some { s with deploy := .atReport err
                      timer := s.timer.stop
                      trace := s.trace ++ [.stopTimer] }
    | .atReport err =>
      some { s with deploy := .finished
                    trace := s.trace ++
                      [.report s.pid s.task.Id (if err then .Failed else .Done)] }
    | .finished => none
  | .fire => if s.timer = .armed then some { s with timer := .fired } else none
  | .job =>
    if s.timer = .fired then
      some { s with timer := .ran
                    trace := s.trace ++ [.report s.pid s.task.Id .TimedOut] }
    else none
  | .container =>
    match s.container with
    | some (c :: cs) => some { s with container := some cs, trace := s.trace ++ [.engine c] }
    | _ => none

/-- The state after a schedule; `none` when the schedule asks a thread to move that cannot. -/
def run (env : Env) (s : Sys) : List Label → Option Sys
  | [] => some s
  | l :: ls => (step env s l).bind fun s1 => run env s1 ls

/-- The dispatch started by a notification and run under a schedule. -/
def dispatch (env : Env) (body : String) (sched : List Label) : Option Sys :=
  (StreamWebhookHandler env body).spawned.bind fun s0 => run env s0 sched

/-- Whether an event is the status-update call for `InProgress`. -/
def Event.isInProgress (e : Event) : Prop :=
  e.kind = .status .InProgress

/-- Whether an event is the status-update call of the deploy path for `Done` or `Failed`. -/
def Event.isDoneOrFailed (e : Event) : Prop :=
  e.kind = .status .Done ∨ e.kind = .status .Failed

/-- Whether an event is a call to the container engine. -/
def Event.isEngineCall (e : Event) : Prop :=
  ∃ c, e = .engine c

/-- In the trace `tr`, every event satisfying `q` comes strictly after an event satisfying `p`. -/
def Precedes (p q : Event → Prop) (tr : List Event) : Prop :=
  ∀ pre e post, tr = pre ++ e :: post → q e → ∃ x ∈ pre, p x

/-- The statuses the deploy path has reported: those of the trace other than `TimedOut`, which
only the timer job reports. -/
def deployStatuses (tr : List Event) : List TaskStatus :=
  (statuses tr).filter (fun st => decide (st ≠ .TimedOut))

/-- The terminal status of the deploy path: `Done` when `DoTask` returns `nil`, else `Failed`. -/
def terminalStatus (env : Env) (t : Task) : TaskStatus :=
  if (DoTask env t).isSome then .Done else .Failed

/-- What the deploy path has reported, by where it stands: nothing before line 122,
`InProgress` from there to the terminal report, and the flag `err` is the result of
`DoTask`. -/
def DeployInv (env : Env) (s : Sys) : Prop :=
  match s.deploy with
  | .atInProgress => deployStatuses s.trace = []
  | .atDoTask => deployStatuses s.trace = [.InProgress]
  | .atStop err => deployStatuses s.trace = [.InProgress] ∧ err = (DoTask env s.task).isNone
  | .atReport err => deployStatuses s.trace = [.InProgress] ∧ err = (DoTask env s.task).isNone
  | .finished => deployStatuses s.trace = [.InProgress, terminalStatus env s.task]

/-- What the timer has done, by its state: `TimedOut` is in the trace once the job has run and
not before, and there is a timer exactly when the task has a positive timeout. -/
def TimerInv (s : Sys) : Prop :=
  ((statuses s.trace).count .TimedOut = if s.timer = .ran then 1 else 0) ∧
  (s.timer = .absent ↔ ¬ 0 < s.task.Timeout) ∧
  (¬ 0 < s.task.Timeout → ∀ e ∈ s.trace, e.kind ≠ .armTimer ∧ e.kind ≠ .stopTimer) ∧
  (0 < s.task.Timeout → .armTimer s.task.Timeout ∈ s.trace)

/-- The order of the events of the deploy path and of `StartContainer` in the trace. -/
def OrderInv (s : Sys) : Prop :=
  Precedes Event.isInProgress Event.isEngineCall s.trace ∧
  Precedes (fun e => e = .goStartContainer) Event.isEngineCall s.trace ∧
  Precedes Event.isInProgress Event.isDoneOrFailed s.trace ∧
  Precedes (fun e => e = .goStartContainer) (fun e => e.kind = .status .Done) s.trace ∧
  (s.deploy ≠ .atInProgress → ∃ x ∈ s.trace, x.isInProgress) ∧
  (s.container ≠ none → s.deploy ≠ .atInProgress ∧ .goStartContainer ∈ s.trace) ∧
  (s.deploy = .atStop false ∨ s.deploy = .atReport false → .goStartContainer ∈ s.trace)

/-! ## The event queue of `task/scheduler.go` -/

/-- The method `Scheduler.PushEvent`: `gEventQueue.PushBack(e)`. The list `gEventQueue` is
the sequence of its elements, front first. -/
def PushEvent {α : Type} (q : List α) (e : α) : List α :=
  q ++ [e]

/-- The method `Scheduler.PullEvent`: the front element and the queue without it; `none` on an
empty queue, where `Remove(nil)` dereferences a nil element. -/
def PullEvent {α : Type} : List α → Option (α × List α)
  | [] => none
  | e :: q => some (e, q)

/-- Pull `n` times: the events pulled, in order, and the queue left. -/
def pullN {α : Type} : Nat → List α → Option (List α × List α)
  | 0, q => some ([], q)
  | n + 1, q =>
    match PullEvent q with
    | none => none
    | some (e, q1) =>
      match pullN n q1 with
      | none => none
      | some (es, q2) => some (e :: es, q2)

/-! ## Concrete inputs -/

/-- A deployment of `nginx:1.25` as service `web`, port 8080 published on 9090. -/
def exConfig : DeployConfig :=
  { ServiceName := "web", ImageName := "nginx", ImageTag := "1.25", Env := ["A=1"]
    RestartPolicy := { Name := "", MaximumRetryCount := 3 }
    AutoRemove := false
    Ports := some (AList.singleton "8080" "9090")
    VolumeMounts := none
    NetworkName := "", NetworkId := "" }

/-- An engine on which every call succeeds. -/
def engineOk : Engine :=
  { stopErr := false, removeErr := false, pullErr := false, created := some "c1",
    startErr := false }

/-- An engine on which the image pull fails. -/
def enginePullFails : Engine :=
  { engineOk with pullErr := true }

/-- A world: the body `"ok"` decodes to task `t1` of pipeline `p1`, any other body fails to
decode and leaves the zero value, whose identifiers print as 24 zeros; every lookup
answers 200 with a task of the given timeout; the configuration decodes to
`exConfig`. -/
def exEnv (timeout : Int) (eng : Engine) : Env :=
  { decodeWebhook := fun b =>
      if b = "ok" then (⟨⟨"p1", "t1", []⟩⟩, false)
      else (⟨⟨"000000000000000000000000", "000000000000000000000000", []⟩⟩, true)
    fetchTask := fun _ tid => .response 200 { Id := tid, Config := "cfg", Timeout := timeout }
    marshalConfig := fun c => some c
    unmarshalConfig := fun _ => some exConfig
    engine := eng
    CodeServerError := 2
    CodeClientError := 1
    MsgClientError := "client error" }

/-- A world whose control plane answers every lookup with status 404. -/
def exEnvNotFound : Env :=
  { exEnv 0 engineOk with
    fetchTask := fun _ tid => .response 404 { Id := tid, Config := "", Timeout := 0 } }

/-! ## The container-replacement protocol -/

/-- The trace of `StartContainer`, case by case. -/
theorem StartContainer_calls (eng : Engine) (cfg : DeployConfig) :
    (StartContainer eng cfg).1 =
      [.stop cfg.ServiceName, .remove cfg.ServiceName,
        .pull (cfg.ImageName ++ ":" ++ cfg.ImageTag)] ++
      (if eng.pullErr then []
       else createCall cfg :: (match eng.created with
         | none => []
         | some id => [.start id])) := by
  unfold StartContainer
  cases hp : eng.pullErr <;> cases hc : eng.created <;> cases hs : eng.startErr <;> simp

/-- A create call issued by `StartContainer` is `createCall cfg`. -/
theorem create_mem_StartContainer {eng : Engine} {cfg : DeployConfig} {c : ContainerConfig}
    {h : HostConfig} {n : NetworkingConfig} {name : String}
    (hc : EngineCall.create c h n name ∈ (StartContainer eng cfg).1) :
    c = containerConfig cfg ∧ h = hostConfig cfg ∧ n = networkingConfig cfg ∧
      name = cfg.ServiceName := by
  rw [StartContainer_calls] at hc
  cases hp : eng.pullErr <;> cases hcr : eng.created <;> simp [hp, hcr, createCall] at hc <;>
    exact hc

/-- C3: `StartContainer` issues stop, remove, pull, create (under the service name), start (of
the created container) in this order, so its trace is an initial segment of that
sequence; stop, remove and pull are always issued; a failed pull ends the trace
before create, a failed create ends it before start. -/
theorem C3_engine_call_order (eng : Engine) (cfg : DeployConfig) :
    (∃ id, (∀ j, eng.created = some j → j = id) ∧
      (StartContainer eng cfg).1 <+:
        [.stop cfg.ServiceName, .remove cfg.ServiceName,
          .pull (cfg.ImageName ++ ":" ++ cfg.ImageTag), createCall cfg, .start id]) ∧
    (∃ c h n, createCall cfg = .create c h n cfg.ServiceName) ∧
    ([.stop cfg.ServiceName, .remove cfg.ServiceName,
        .pull (cfg.ImageName ++ ":" ++ cfg.ImageTag)] <+: (StartContainer eng cfg).1) ∧
    (eng.pullErr = true → (StartContainer eng cfg).1 =
      [.stop cfg.ServiceName, .remove cfg.ServiceName,
        .pull (cfg.ImageName ++ ":" ++ cfg.ImageTag)]) ∧
    (eng.pullErr = false → eng.created = none → (StartContainer eng cfg).1 =
      [.stop cfg.ServiceName, .remove cfg.ServiceName,
        .pull (cfg.ImageName ++ ":" ++ cfg.ImageTag), createCall cfg]) ∧
    (∀ id, eng.pullErr = false → eng.created = some id → (StartContainer eng cfg).1 =
      [.stop cfg.ServiceName, .remove cfg.ServiceName,
        .pull (cfg.ImageName ++ ":" ++ cfg.ImageTag), createCall cfg, .start id]) := by
  rw [StartContainer_calls]
  refine ⟨?_, ⟨_, _, _, rfl⟩, ⟨_, rfl⟩, ?_, ?_, ?_⟩
  · cases hc : eng.created with
    | none =>
      refine ⟨"", by simp, ?_⟩
      cases hp : eng.pullErr
      · exact ⟨[.start ""], by simp⟩
      · exact ⟨[createCall cfg, .start ""], by simp⟩
    | some id =>
      refine ⟨id, by simp, ?_⟩
      cases hp : eng.pullErr
      · exact ⟨[], by simp⟩
      · exact ⟨[createCall cfg, .start id], by simp⟩
  · intro hp; simp [hp]
  · intro hp hc; simp [hp, hc]
  · intro id hp hc; simp [hp, hc]

/-- C3 on an engine whose image pull fails: the trace ends with the pull. -/
theorem C3_engine_call_order_witness :
    (StartContainer enginePullFails exConfig).1 =
      [.stop "web", .remove "web", .pull ("nginx" ++ ":" ++ "1.25")] :=
  (C3_engine_call_order enginePullFails exConfig).2.2.2.1 rfl

/-- Appending a fixed suffix to a string is injective. -/
theorem append_suffix_inj {a b s : String} (h : a ++ s = b ++ s) : a = b := by
  have h1 : (a ++ s).data = (b ++ s).data := by rw [h]
  rw [String.data_append, String.data_append] at h1
  exact String.ext (List.append_cancel_right h1)

/-- The keys of a map filled from a table under the keys `e.1 ++ "/tcp"`. -/
theorem mem_foldl_tcp {V : Type} (f : (Sigma fun _ : String => String) → V)
    (l : List (Sigma fun _ : String => String)) (m : GoMap V) (k : String) :
    k ∈ l.foldl (fun m e => m.insert (e.1 ++ "/tcp") (f e)) m ↔
      k ∈ m ∨ ∃ e ∈ l, k = e.1 ++ "/tcp" := by
  induction l generalizing m with
  | nil => simp
  | cons e t ih =>
    rw [List.foldl_cons, ih, AList.mem_insert]
    constructor
    · rintro ((h | h) | ⟨e1, he1, h⟩)
      · exact Or.inr ⟨e, List.mem_cons_self _ _, h⟩
      · exact Or.inl h
      · exact Or.inr ⟨e1, List.mem_cons_of_mem _ he1, h⟩
    · rintro (h | ⟨e1, he1, h⟩)
      · exact Or.inl (Or.inr h)
      · rcases List.mem_cons.1 he1 with rfl | he1
        · exact Or.inl (Or.inl h)
        · exact Or.inr ⟨e1, he1, h⟩

/-- A key that no entry of the table produces keeps its value. -/
theorem lookup_foldl_tcp_of_ne {V : Type} (f : (Sigma fun _ : String => String) → V)
    (l : List (Sigma fun _ : String => String)) (m : GoMap V) (k : String)
    (h : ∀ e ∈ l, k ≠ e.1 ++ "/tcp") :
    (l.foldl (fun m e => m.insert (e.1 ++ "/tcp") (f e)) m).lookup k = m.lookup k := by
  induction l generalizing m with
  | nil => rfl
  | cons e t ih =>
    rw [List.foldl_cons, ih _ (fun e1 he1 => h e1 (List.mem_cons_of_mem _ he1))]
    exact AList.lookup_insert_ne (h e (List.mem_cons_self _ _))

/-- The value stored for an entry of a table with unique keys. -/
theorem lookup_foldl_tcp {V : Type} (f : (Sigma fun _ : String => String) → V)
    (l : List (Sigma fun _ : String => String)) (m : GoMap V) (hn : l.NodupKeys)
    (e : Sigma fun _ : String => String) (he : e ∈ l) :
    (l.foldl (fun m e => m.insert (e.1 ++ "/tcp") (f e)) m).lookup (e.1 ++ "/tcp") =
      some (f e) := by
  induction l generalizing m with
  | nil => cases he
  | cons e0 t ih =>
    rw [List.foldl_cons]
    rcases List.mem_cons.1 he with rfl | he1
    · rw [lookup_foldl_tcp_of_ne, AList.lookup_insert]
      intro e1 he1 heq
      have hk : e.1 = e1.1 := append_suffix_inj heq
      exact List.not_mem_keys_of_nodupKeys_cons hn (hk ▸ List.mem_keys_of_mem he1)
    · exact ih _ (List.nodupKeys_of_nodupKeys_cons hn) he1

/-- C7: with a non-nil port table, the configuration passed to create exposes
`containerPort/tcp` for every entry of the table and binds it to exactly one
binding, host port as in the table and empty host IP; neither map has a key that
does not come from the table. -/
theorem C7_port_mappings (eng : Engine) (cfg : DeployConfig) (ports : GoMap String)
    (c : ContainerConfig) (h : HostConfig) (n : NetworkingConfig) (name : String)
    (hp : cfg.Ports = some ports)
    (hc : EngineCall.create c h n name ∈ (StartContainer eng cfg).1) :
    ∃ ex pb, c.ExposedPorts = some ex ∧ h.PortBindings = some pb ∧
      (∀ cp hostPort, ports.lookup cp = some hostPort →
        (cp ++ "/tcp") ∈ ex ∧
        pb.lookup (cp ++ "/tcp") = some [{ HostPort := hostPort, HostIP := "" }]) ∧
      (∀ k, k ∈ ex → ∃ cp, cp ∈ ports ∧ k = cp ++ "/tcp") ∧
      (∀ k, k ∈ pb → ∃ cp, cp ∈ ports ∧ k = cp ++ "/tcp") := by
  obtain ⟨rfl, rfl, -, -⟩ := create_mem_StartContainer hc
  refine ⟨exposedPorts ports, portBindings ports, by simp [containerConfig, hp],
    by simp [hostConfig, hp], ?_, ?_, ?_⟩
  · intro cp hostPort hl
    have hmem : (⟨cp, hostPort⟩ : Sigma fun _ : String => String) ∈ ports.entries :=
      AList.mem_lookup_iff.1 hl
    constructor
    · exact (mem_foldl_tcp _ _ _ _).2 (Or.inr ⟨_, hmem, rfl⟩)
    · exact lookup_foldl_tcp (fun e => [PortBinding.mk e.2 ""]) ports.entries ∅
        ports.nodupKeys _ hmem
  · intro k hk
    rcases (mem_foldl_tcp _ _ _ _).1 hk with h0 | ⟨e, he, rfl⟩
    · exact absurd h0 (AList.not_mem_empty _)
    · exact ⟨e.1, AList.mem_keys.2 (List.mem_keys_of_mem he), rfl⟩
  · intro k hk
    rcases (mem_foldl_tcp _ _ _ _).1 hk with h0 | ⟨e, he, rfl⟩
    · exact absurd h0 (AList.not_mem_empty _)
    · exact ⟨e.1, AList.mem_keys.2 (List.mem_keys_of_mem he), rfl⟩

/-- C7 at `exConfig`: the table `8080 -> 9090` on an engine where every call succeeds. -/
theorem C7_port_mappings_witness :
    ∃ ex pb, (containerConfig exConfig).ExposedPorts = some ex ∧
      (hostConfig exConfig).PortBindings = some pb ∧
      (∀ cp hostPort, (AList.singleton "8080" "9090" : GoMap String).lookup cp = some hostPort →
        (cp ++ "/tcp") ∈ ex ∧
        pb.lookup (cp ++ "/tcp") = some [{ HostPort := hostPort, HostIP := "" }]) ∧
      (∀ k, k ∈ ex → ∃ cp, cp ∈ (AList.singleton "8080" "9090" : GoMap String) ∧
        k = cp ++ "/tcp") ∧
      (∀ k, k ∈ pb → ∃ cp, cp ∈ (AList.singleton "8080" "9090" : GoMap String) ∧
        k = cp ++ "/tcp") :=
  C7_port_mappings engineOk exConfig (AList.singleton "8080" "9090")
    (containerConfig exConfig) (hostConfig exConfig) (networkingConfig exConfig) "web" rfl
    (by simp [StartContainer, engineOk, createCall, exConfig])

/-- C8: the restart policy passed to create is named `on-failure` when the configured name is
empty and keeps the configured name otherwise, with the configured maximum retry
count; the create call is issued whenever the pull succeeds. -/
theorem C8_restart_policy (eng : Engine) (cfg : DeployConfig) :
    (eng.pullErr = false → createCall cfg ∈ (StartContainer eng cfg).1) ∧
    ∀ c h n name, EngineCall.create c h n name ∈ (StartContainer eng cfg).1 →
      h.RestartPolicy.Name =
        (if cfg.RestartPolicy.Name = "" then "on-failure" else cfg.RestartPolicy.Name) ∧
      h.RestartPolicy.MaximumRetryCount = cfg.RestartPolicy.MaximumRetryCount := by
  constructor
  · intro hp
    rw [StartContainer_calls]
    simp [hp]
  · intro c h n name hc
    obtain ⟨-, rfl, -, -⟩ := create_mem_StartContainer hc
    exact ⟨rfl, rfl⟩

/-- C8 at `exConfig`, whose restart policy has no name and three retries. -/
theorem C8_restart_policy_witness :
    (hostConfig exConfig).RestartPolicy.Name = "on-failure" ∧
      (hostConfig exConfig).RestartPolicy.MaximumRetryCount = 3 :=
  (C8_restart_policy engineOk exConfig).2 (containerConfig exConfig) (hostConfig exConfig)
    (networkingConfig exConfig) "web"
    (by simp [StartContainer, engineOk, createCall, exConfig])

/-! ## The event queue -/

/-- Pushing a sequence of events appends it to the queue. -/
theorem foldl_PushEvent {α : Type} (es q : List α) : es.foldl PushEvent q = q ++ es := by
  induction es generalizing q with
  | nil => simp
  | cons e t ih => simp [List.foldl_cons, ih, PushEvent]

/-- Pulling as many events as a list has, from a queue that starts with that list. -/
theorem pullN_append {α : Type} (l r : List α) : pullN l.length (l ++ r) = some (l, r) := by
  induction l with
  | nil => rfl
  | cons e t ih => simp [pullN, PullEvent, ih]

/-- C10: the event queue is first-in first-out. A pull on a non-empty queue returns its front
event and removes exactly that one, also when events were pushed behind it; after
the events `es` are pushed onto an empty queue, any `k` pulls (at most as many as
were pushed) return the first `k` events in push order and leave the others; as
many pulls as pushes return all events in push order and leave the queue empty. -/
theorem C10_queue_fifo {α : Type} (es : List α) :
    (∀ (x e : α) (q : List α),
      PullEvent (x :: q) = some (x, q) ∧
      PullEvent (PushEvent (x :: q) e) = some (x, PushEvent q e)) ∧
    (∀ k, k ≤ es.length →
      pullN k (es.foldl PushEvent []) = some (es.take k, es.drop k)) ∧
    pullN es.length (es.foldl PushEvent []) = some (es, []) := by
  refine ⟨fun x e q => ⟨rfl, rfl⟩, ?_, ?_⟩
  · intro k hk
    have h := pullN_append (es.take k) (es.drop k)
    rw [List.take_append_drop, List.length_take, Nat.min_eq_left hk] at h
    simpa [foldl_PushEvent] using h
  · have h := pullN_append es []
    simpa [foldl_PushEvent] using h

/-- C10 on three events: two pulls after three pushes. -/
theorem C10_queue_fifo_witness :
    pullN 2 ([10, 20, 30].foldl PushEvent []) = some ([10, 20], [30]) :=
  (C10_queue_fifo [10, 20, 30]).2.1 2 (by decide)

/-! ## The handler before its acknowledgment -/

/-- C4: when the task lookup fails (transport error, or a response whose status is not 200,
which covers every response outside the 2xx range), the handler acknowledges with
status 400 and the error code of the case, the lookup is the only call it makes,
no timer is armed and no goroutine is started: under no schedule is there a
dispatch to report a status. -/
theorem C4_fetch_failure (env : Env) (body : String)
    (hf : (∃ msg, env.fetchTask (env.decodeWebhook body).1.Payload.PipelineId
            (env.decodeWebhook body).1.Payload.TaskId = .transportError msg) ∨
          (∃ code task, env.fetchTask (env.decodeWebhook body).1.Payload.PipelineId
            (env.decodeWebhook body).1.Payload.TaskId = .response code task ∧ code ≠ 200)) :
    (StreamWebhookHandler env body).ack.status = 400 ∧
    ((StreamWebhookHandler env body).ack.body.Code = env.CodeServerError ∨
      (StreamWebhookHandler env body).ack.body.Code = env.CodeClientError) ∧
    (StreamWebhookHandler env body).trace =
      [.fetch (env.decodeWebhook body).1.Payload.PipelineId
        (env.decodeWebhook body).1.Payload.TaskId] ∧
    statuses (StreamWebhookHandler env body).trace = [] ∧
    (StreamWebhookHandler env body).spawned = none ∧
    ∀ sched, dispatch env body sched = none := by
  have key : (StreamWebhookHandler env body).ack.status = 400 ∧
      ((StreamWebhookHandler env body).ack.body.Code = env.CodeServerError ∨
        (StreamWebhookHandler env body).ack.body.Code = env.CodeClientError) ∧
      (StreamWebhookHandler env body).trace =
        [.fetch (env.decodeWebhook body).1.Payload.PipelineId
          (env.decodeWebhook body).1.Payload.TaskId] ∧
      (StreamWebhookHandler env body).spawned = none := by
    rcases hf with ⟨msg, h⟩ | ⟨code, task, h, hne⟩
    · simp [StreamWebhookHandler, h]
    · simp [StreamWebhookHandler, h, hne]
  obtain ⟨h1, h2, h3, h4⟩ := key
  refine ⟨h1, h2, h3, ?_, h4, ?_⟩
  · rw [h3]; rfl
  · intro sched
    simp [dispatch, h4]

/-- C4 on a control plane that answers 404. -/
theorem C4_fetch_failure_witness :
    (StreamWebhookHandler exEnvNotFound "ok").ack.status = 400 ∧
    ((StreamWebhookHandler exEnvNotFound "ok").ack.body.Code = 2 ∨
      (StreamWebhookHandler exEnvNotFound "ok").ack.body.Code = 1) ∧
    (StreamWebhookHandler exEnvNotFound "ok").trace = [.fetch "p1" "t1"] ∧
    statuses (StreamWebhookHandler exEnvNotFound "ok").trace = [] ∧
    (StreamWebhookHandler exEnvNotFound "ok").spawned = none ∧
    ∀ sched, dispatch exEnvNotFound "ok" sched = none :=
  C4_fetch_failure exEnvNotFound "ok"
    (Or.inr ⟨404, { Id := "t1", Config := "", Timeout := 0 }, rfl, by decide⟩)

/-- The handler when the lookup answers 200: what it starts. -/
theorem handler_of_fetch_ok (env : Env) (body : String) (task : Task)
    (hf : env.fetchTask (env.decodeWebhook body).1.Payload.PipelineId
      (env.decodeWebhook body).1.Payload.TaskId = .response 200 task) :
    (StreamWebhookHandler env body).ack = ⟨200, ⟨"", 0⟩⟩ ∧
    ∃ s0, (StreamWebhookHandler env body).spawned = some s0 ∧
      s0.pid = (env.decodeWebhook body).1.Payload.PipelineId ∧ s0.task = task ∧
      s0.deploy = .atInProgress ∧ s0.container = none ∧
      s0.timer = (if task.Timeout > 0 then .armed else .absent) ∧
      s0.trace = (StreamWebhookHandler env body).trace ∧
      s0.trace = [.fetch (env.decodeWebhook body).1.Payload.PipelineId
        (env.decodeWebhook body).1.Payload.TaskId] ++
        (if task.Timeout > 0 then [.armTimer task.Timeout] else []) := by
  by_cases ht : task.Timeout > 0 <;> simp [StreamWebhookHandler, hf, ht]

/-- A started dispatch comes from a lookup answered 200. -/
theorem fetch_ok_of_spawned (env : Env) (body : String) (s0 : Sys)
    (h : (StreamWebhookHandler env body).spawned = some s0) :
    env.fetchTask (env.decodeWebhook body).1.Payload.PipelineId
      (env.decodeWebhook body).1.Payload.TaskId = .response 200 s0.task := by
  cases hf : env.fetchTask (env.decodeWebhook body).1.Payload.PipelineId
      (env.decodeWebhook body).1.Payload.TaskId with
  | transportError msg => simp [StreamWebhookHandler, hf] at h
  | response code task =>
    by_cases hc : code = 200
    · subst hc
      obtain ⟨-, s1, h1, -, h2, -⟩ := handler_of_fetch_ok env body task hf
      rw [h1] at h
      cases h
      rw [h2]
    · simp [StreamWebhookHandler, hf, hc] at h

/-- C5, as the code has it: the handler does not look at the decode error. It behaves as if the
body had decoded to the value left in `sw`: when the lookup for the identifiers
of that value answers 200 with a task, it acknowledges with status 200 and starts
the dispatch of that task for the pipeline of that value; the deploy path of that
dispatch runs to its end, reporting `InProgress` and then its terminal status
(`Done` when `DoTask` returns `nil`, else `Failed`), both for that pipeline and
task. Otherwise it acknowledges with status 400, starts nothing and reports no
status. -/
theorem C5_decode_error_ignored (env : Env) (body : String) :
    (StreamWebhookHandler env body =
      StreamWebhookHandler
        { env with decodeWebhook := fun b => ((env.decodeWebhook b).1, false) } body) ∧
    (∀ task, env.fetchTask (env.decodeWebhook body).1.Payload.PipelineId
        (env.decodeWebhook body).1.Payload.TaskId = .response 200 task →
      (StreamWebhookHandler env body).ack.status = 200 ∧
      (StreamWebhookHandler env body).spawned.isSome = true ∧
      ((dispatch env body [.deploy, .deploy, .deploy, .deploy]).map
        fun s => (s.deploy, s.trace.filter fun e => e.statusOf.isSome)) =
        some (.finished,
          [.report (env.decodeWebhook body).1.Payload.PipelineId task.Id .InProgress,
            .report (env.decodeWebhook body).1.Payload.PipelineId task.Id
              (terminalStatus env task)])) ∧
    ((¬ ∃ task, env.fetchTask (env.decodeWebhook body).1.Payload.PipelineId
        (env.decodeWebhook body).1.Payload.TaskId = .response 200 task) →
      (StreamWebhookHandler env body).ack.status = 400 ∧
      (StreamWebhookHandler env body).spawned = none ∧
      statuses (StreamWebhookHandler env body).trace = [] ∧
      ∀ sched, dispatch env body sched = none) := by
  refine ⟨rfl, ?_, ?_⟩
  · intro task hf
    obtain ⟨h1, s0, h2, -⟩ := handler_of_fetch_ok env body task hf
    refine ⟨by simp [h1], by simp [h2], ?_⟩
    by_cases ht : task.Timeout > 0 <;> cases hdo : DoTask env task <;>
      simp [dispatch, StreamWebhookHandler, hf, ht, run, step, hdo, Event.statusOf,
        terminalStatus, TimerSt.stop]
  · intro hn
    have hf : (∃ msg, env.fetchTask (env.decodeWebhook body).1.Payload.PipelineId
            (env.decodeWebhook body).1.Payload.TaskId = .transportError msg) ∨
          (∃ code task, env.fetchTask (env.decodeWebhook body).1.Payload.PipelineId
            (env.decodeWebhook body).1.Payload.TaskId = .response code task ∧ code ≠ 200) := by
      cases hf : env.fetchTask (env.decodeWebhook body).1.Payload.PipelineId
          (env.decodeWebhook body).1.Payload.TaskId with
      | transportError msg => exact Or.inl ⟨msg, rfl⟩
      | response code task =>
        refine Or.inr ⟨code, task, rfl, ?_⟩
        rintro rfl
        exact hn ⟨task, hf⟩
    rcases hf with ⟨msg, h⟩ | ⟨code, task, h, hne⟩
    · simp [StreamWebhookHandler, h, statuses, Event.statusOf, dispatch]
    · simp [StreamWebhookHandler, h, hne, statuses, Event.statusOf, dispatch]

/-- C5 on a body that does not decode while the lookup answers 200. -/
theorem C5_decode_error_ignored_witness :
    ((exEnv 0 engineOk).decodeWebhook "not json").2 = true ∧
    (StreamWebhookHandler (exEnv 0 engineOk) "not json").ack.status = 200 ∧
      (StreamWebhookHandler (exEnv 0 engineOk) "not json").spawned.isSome = true ∧
      ((dispatch (exEnv 0 engineOk) "not json" [.deploy, .deploy, .deploy, .deploy]).map
        fun s => (s.deploy, s.trace.filter fun e => e.statusOf.isSome)) =
        some (.finished,
          [.report "000000000000000000000000" "000000000000000000000000" .InProgress,
            .report "000000000000000000000000" "000000000000000000000000"
              (terminalStatus (exEnv 0 engineOk)
                { Id := "000000000000000000000000", Config := "cfg", Timeout := 0 })]) :=
  ⟨rfl, (C5_decode_error_ignored (exEnv 0 engineOk) "not json").2.1
    { Id := "000000000000000000000000", Config := "cfg", Timeout := 0 } rfl⟩

/-- C5 fails as stated: the body `"not json"` does not decode, yet the handler acknowledges with 200
and the dispatch it starts reports `InProgress` and `Done`. -/
theorem C5_counterexample :
    ((exEnv 0 engineOk).decodeWebhook "not json").2 = true ∧
    (StreamWebhookHandler (exEnv 0 engineOk) "not json").ack.status = 200 ∧
    ((dispatch (exEnv 0 engineOk) "not json" [.deploy, .deploy, .deploy, .deploy]).map
      fun s => statuses s.trace) = some [.InProgress, .Done] := by
  decide

/-! ## Executions of a dispatch -/

/-- The nine ways a thread moves, field by field. -/
theorem step_cases {env : Env} {s s1 : Sys} {l : Label} (h : step env s l = some s1) :
    s1.pid = s.pid ∧ s1.task = s.task ∧
    ((l = .deploy ∧ s.deploy = .atInProgress ∧ s1.deploy = .atDoTask ∧ s1.timer = s.timer ∧
        s1.container = s.container ∧
        s1.trace = s.trace ++ [.report s.pid s.task.Id .InProgress]) ∨
      (l = .deploy ∧ s.deploy = .atDoTask ∧ DoTask env s.task = none ∧
        s1.deploy = .atStop true ∧ s1.timer = s.timer ∧ s1.container = s.container ∧
        s1.trace = s.trace) ∨
      (∃ c, l = .deploy ∧ s.deploy = .atDoTask ∧ DoTask env s.task = some c ∧
        s1.deploy = .atStop false ∧ s1.timer = s.timer ∧
        s1.container = some (StartContainer env.engine c).1 ∧
        s1.trace = s.trace ++ [.goStartContainer]) ∨
      (∃ err, l = .deploy ∧ s.deploy = .atStop err ∧ s.timer = .absent ∧
        s1.deploy = .atReport err ∧ s1.timer = .absent ∧ s1.container = s.container ∧
        s1.trace = s.trace) ∨
      (∃ err, l = .deploy ∧ s.deploy = .atStop err ∧ s.timer ≠ .absent ∧
        s1.deploy = .atReport err ∧ s1.timer = s.timer.stop ∧ s1.container = s.container ∧
        s1.trace = s.trace ++ [.stopTimer]) ∨
      (∃ err, l = .deploy ∧ s.deploy = .atReport err ∧ s1.deploy = .finished ∧
        s1.timer = s.timer ∧ s1.container = s.container ∧
        s1.trace = s.trace ++ [.report s.pid s.task.Id (if err then .Failed else .Done)]) ∨
      (l = .fire ∧ s.timer = .armed ∧ s1.timer = .fired ∧ s1.deploy = s.deploy ∧
        s1.container = s.container ∧ s1.trace = s.trace) ∨
      (l = .job ∧ s.timer = .fired ∧ s1.timer = .ran ∧ s1.deploy = s.deploy ∧
        s1.container = s.container ∧
        s1.trace = s.trace ++ [.report s.pid s.task.Id .TimedOut]) ∨
      (∃ c cs, l = .container ∧ s.container = some (c :: cs) ∧ s1.container = some cs ∧
        s1.deploy = s.deploy ∧ s1.timer = s.timer ∧ s1.trace = s.trace ++ [.engine c])) := by
  cases l with
  | deploy =>
    simp only [step] at h
    split at h
    · cases h; simp [*]
    · split at h <;> cases h <;> simp [*]
    · split at h <;> cases h <;> simp [*]
    · cases h; simp [*]
    · cases h
  | fire =>
    simp only [step] at h
    split at h
    · cases h; simp [*]
    · cases h
  | job =>
    simp only [step] at h
    split at h
    · cases h; simp [*]
    · cases h
  | container =>
    simp only [step] at h
    split at h
    · next c cs hc =>
      cases h
      refine ⟨rfl, rfl, ?_⟩
      iterate 8 apply Or.inr
      exact ⟨c, cs, rfl, hc, rfl, rfl, rfl, rfl⟩
    · cases h

/-- A property kept by every step holds after every schedule. -/
theorem run_invariant (env : Env) (P : Sys → Prop)
    (hstep : ∀ s l s1, P s → step env s l = some s1 → P s1) :
    ∀ (sched : List Label) (s0 s : Sys), P s0 → run env s0 sched = some s → P s := by
  intro sched
  induction sched with
  | nil =>
    intro s0 s h0 hr
    simp only [run, Option.some.injEq] at hr
    exact hr ▸ h0
  | cons l ls ih =>
    intro s0 s h0 hr
    simp only [run] at hr
    cases hs : step env s0 l with
    | none => rw [hs] at hr; cases hr
    | some s1 =>
      rw [hs] at hr
      exact ih s1 s (hstep s0 l s1 h0 hs) hr

/-- A dispatch that exists was started by the handler from a lookup answered 200. -/
theorem dispatch_start {env : Env} {body : String} {sched : List Label} {s : Sys}
    (h : dispatch env body sched = some s) :
    ∃ s0, (StreamWebhookHandler env body).spawned = some s0 ∧ run env s0 sched = some s ∧
      env.fetchTask (env.decodeWebhook body).1.Payload.PipelineId
        (env.decodeWebhook body).1.Payload.TaskId = .response 200 s0.task ∧
      s0.deploy = .atInProgress ∧ s0.container = none ∧
      s0.timer = (if s0.task.Timeout > 0 then .armed else .absent) ∧
      s0.trace = [.fetch (env.decodeWebhook body).1.Payload.PipelineId
        (env.decodeWebhook body).1.Payload.TaskId] ++
        (if s0.task.Timeout > 0 then [.armTimer s0.task.Timeout] else []) := by
  unfold dispatch at h
  cases hsp : (StreamWebhookHandler env body).spawned with
  | none => rw [hsp] at h; cases h
  | some s0 =>
    rw [hsp] at h
    have hf := fetch_ok_of_spawned env body s0 hsp
    obtain ⟨-, s1, h1, -, h2, h3, h4, h5, -, h6⟩ := handler_of_fetch_ok env body s0.task hf
    rw [hsp] at h1
    cases h1
    exact ⟨s0, rfl, h, hf, h3, h4, h5, h6⟩

/-- Appending one event keeps an order of the trace when the new event, if it is of the later
kind, finds an earlier one in the trace. -/
theorem Precedes.snoc {p q : Event → Prop} {tr : List Event} {e : Event}
    (h : Precedes p q tr) (he : q e → ∃ x ∈ tr, p x) : Precedes p q (tr ++ [e]) := by
  intro pre x post hsplit hq
  rcases List.eq_nil_or_concat post with rfl | ⟨L, b, rfl⟩
  · have h1 : tr ++ [e] = pre ++ [x] := hsplit
    obtain ⟨h2, h3⟩ := List.append_inj' h1 rfl
    cases h3
    subst h2
    exact he hq
  · have h1 : tr ++ [e] = (pre ++ x :: L) ++ [b] := by simpa using hsplit
    obtain ⟨h2, -⟩ := List.append_inj' h1 rfl
    exact h pre x L h2 hq

/-- The statuses of a trace with one more event. -/
theorem statuses_snoc (tr : List Event) (e : Event) :
    statuses (tr ++ [e]) = statuses tr ++ (e.statusOf).toList := by
  cases h : e.statusOf <;> simp [statuses, List.filterMap_append, h]

/-- The statuses of the deploy path in a trace with one more event. -/
theorem deployStatuses_snoc (tr : List Event) (e : Event) :
    deployStatuses (tr ++ [e]) =
      deployStatuses tr ++ (e.statusOf.toList.filter fun st => decide (st ≠ .TimedOut)) := by
  simp [deployStatuses, statuses_snoc]

/-- Every step keeps `DeployInv`. -/
theorem DeployInv_step (env : Env) (s : Sys) (l : Label) (s1 : Sys) (hi : DeployInv env s)
    (h : step env s l = some s1) : DeployInv env s1 := by
  obtain ⟨-, ht, hc⟩ := step_cases h
  unfold DeployInv at hi ⊢
  rcases hc with ⟨-, hd, hd1, -, -, htr⟩ | ⟨-, hd, hdo, hd1, -, -, htr⟩ |
    ⟨c, -, hd, hdo, hd1, -, -, htr⟩ | ⟨err, -, hd, -, hd1, -, -, htr⟩ |
    ⟨err, -, hd, -, hd1, -, -, htr⟩ | ⟨err, -, hd, hd1, -, -, htr⟩ |
    ⟨-, -, -, hd1, -, htr⟩ | ⟨-, -, -, hd1, -, htr⟩ | ⟨c, cs, -, -, -, hd1, -, htr⟩
  · rw [hd] at hi
    simp only [hd1, htr, deployStatuses_snoc, hi]
    simp [Event.statusOf]
  · rw [hd] at hi
    simp only [hd1, htr, ht, hi, hdo]
    simp
  · rw [hd] at hi
    simp only [hd1, htr, ht, deployStatuses_snoc, hi, hdo]
    simp [Event.statusOf]
  · rw [hd] at hi
    simp only [hd1, htr, ht]
    exact hi
  · rw [hd] at hi
    simp only [hd1, htr, ht, deployStatuses_snoc, hi.1]
    exact ⟨by simp [Event.statusOf], hi.2⟩
  · rw [hd] at hi
    simp only [hd1, htr, ht, deployStatuses_snoc, hi.1]
    obtain ⟨-, he⟩ := hi
    cases hdo : DoTask env s.task <;> simp [hdo] at he <;> subst he <;>
      simp [Event.statusOf, terminalStatus, hdo]
  · rw [hd1, htr, ht]; exact hi
  · rw [hd1, ht]
    have : deployStatuses s1.trace = deployStatuses s.trace := by
      rw [htr, deployStatuses_snoc]; simp [Event.statusOf]
    simp only [this]
    exact hi
  · rw [hd1, ht]
    have : deployStatuses s1.trace = deployStatuses s.trace := by
      rw [htr, deployStatuses_snoc]; simp [Event.statusOf]
    simp only [this]
    exact hi

/-- Stopping a timer leaves it present or absent as it was, and does not run its job. -/
theorem TimerSt.stop_facts (t : TimerSt) :
    (t.stop = .absent ↔ t = .absent) ∧ (t.stop = .ran ↔ t = .ran) := by
  cases t <;> simp [TimerSt.stop]

/-- Every step keeps `TimerInv`. -/
theorem TimerInv_step (env : Env) (s : Sys) (l : Label) (s1 : Sys) (hi : TimerInv s)
    (h : step env s l = some s1) : TimerInv s1 := by
  obtain ⟨-, ht, hc⟩ := step_cases h
  obtain ⟨i1, i2, i3, i4⟩ := hi
  unfold TimerInv
  rw [ht]
  rcases hc with ⟨-, -, -, htm, -, htr⟩ | ⟨-, -, -, -, htm, -, htr⟩ |
    ⟨c, -, -, -, -, htm, -, htr⟩ | ⟨err, -, -, hab, -, htm, -, htr⟩ |
    ⟨err, -, -, hab, -, htm, -, htr⟩ | ⟨err, -, -, -, htm, -, htr⟩ |
    ⟨-, har, htm, -, -, htr⟩ | ⟨-, hfi, htm, -, -, htr⟩ | ⟨c, cs, -, -, -, -, htm, htr⟩
  · refine ⟨?_, by rw [htm]; exact i2, ?_, fun hp => by rw [htr]; simp [i4 hp]⟩
    · rw [htm, htr, statuses_snoc, ← i1]; simp [Event.statusOf]
    · intro hz e he
      rw [htr] at he
      rcases List.mem_append.1 he with he | he
      · exact i3 hz e he
      · simp at he; subst he; simp [Event.kind]
  · rw [htm, htr]; exact ⟨i1, i2, i3, i4⟩
  · refine ⟨?_, by rw [htm]; exact i2, ?_, fun hp => by rw [htr]; simp [i4 hp]⟩
    · rw [htm, htr, statuses_snoc, ← i1]; simp [Event.statusOf]
    · intro hz e he
      rw [htr] at he
      rcases List.mem_append.1 he with he | he
      · exact i3 hz e he
      · simp at he; subst he; simp [Event.kind]
  · rw [htm, htr]
    rw [hab] at i1 i2
    exact ⟨i1, i2, i3, i4⟩
  · have hpos : 0 < s.task.Timeout := by
      by_contra hz
      exact hab (i2.2 hz)
    refine ⟨?_, ?_, fun hz => absurd hpos hz, fun hp => by rw [htr]; simp [i4 hp]⟩
    · rw [htm, htr, statuses_snoc]
      simp only [Event.statusOf, Option.toList, List.append_nil, i1,
        (TimerSt.stop_facts s.timer).2]
    · rw [htm, (TimerSt.stop_facts s.timer).1]; exact i2
  · refine ⟨?_, by rw [htm]; exact i2, ?_, fun hp => by rw [htr]; simp [i4 hp]⟩
    · rw [htm, htr, statuses_snoc, ← i1]; cases err <;> simp [Event.statusOf]
    · intro hz e he
      rw [htr] at he
      rcases List.mem_append.1 he with he | he
      · exact i3 hz e he
      · simp at he; subst he; simp [Event.kind]
  · rw [har] at i1 i2
    rw [htm, htr]
    exact ⟨by simpa using i1, by simpa using i2, i3, i4⟩
  · rw [hfi] at i1 i2
    refine ⟨?_, by rw [htm]; simpa using i2, ?_, fun hp => by rw [htr]; simp [i4 hp]⟩
    · rw [htm, htr, statuses_snoc]
      have : List.count TaskStatus.TimedOut (statuses s.trace) = 0 := by simpa using i1
      simp [Event.statusOf, List.count_append, this]
    · intro hz
      simp at i2
      exact absurd (i2 ) hz
  · refine ⟨?_, by rw [htm]; exact i2, ?_, fun hp => by rw [htr]; simp [i4 hp]⟩
    · rw [htm, htr, statuses_snoc, ← i1]; simp [Event.statusOf]
    · intro hz e he
      rw [htr] at he
      rcases List.mem_append.1 he with he | he
      · exact i3 hz e he
      · simp at he; subst he; cases c <;> simp [Event.kind]

/-- Appending an event that is not of the later kind keeps an order of the trace. -/
theorem Precedes.snoc_of_not {p q : Event → Prop} {tr : List Event} {e : Event}
    (h : Precedes p q tr) (he : ¬ q e) : Precedes p q (tr ++ [e]) :=
  h.snoc fun hq => absurd hq he

/-- An event found in a trace is found in the trace with one more event. -/
theorem exists_mem_snoc {p : Event → Prop} {tr : List Event} (e : Event)
    (h : ∃ x ∈ tr, p x) : ∃ x ∈ tr ++ [e], p x := by
  obtain ⟨x, hx, hp⟩ := h
  exact ⟨x, List.mem_append_left _ hx, hp⟩

/-- Every step keeps `OrderInv`. -/
theorem OrderInv_step (env : Env) (s : Sys) (l : Label) (s1 : Sys) (hi : OrderInv s)
    (h : step env s l = some s1) : OrderInv s1 := by
  obtain ⟨-, -, hc⟩ := step_cases h
  obtain ⟨o1, o2, o3, o4, o5, o6, o7⟩ := hi
  unfold OrderInv
  rcases hc with ⟨-, hd, hd1, -, hcn, htr⟩ | ⟨-, hd, -, hd1, -, hcn, htr⟩ |
    ⟨c, -, hd, -, hd1, -, hcn, htr⟩ | ⟨err, -, hd, -, hd1, -, hcn, htr⟩ |
    ⟨err, -, hd, -, hd1, -, hcn, htr⟩ | ⟨err, -, hd, hd1, -, hcn, htr⟩ |
    ⟨-, -, -, hd1, hcn, htr⟩ | ⟨-, -, -, hd1, hcn, htr⟩ | ⟨c, cs, -, hsc, hcn, hd1, -, htr⟩
  · rw [htr, hd1, hcn]
    refine ⟨o1.snoc_of_not (by simp [Event.isEngineCall]),
      o2.snoc_of_not (by simp [Event.isEngineCall]),
      o3.snoc_of_not (by simp [Event.isDoneOrFailed, Event.kind]),
      o4.snoc_of_not (by simp [Event.kind]),
      fun _ => ⟨.report s.pid s.task.Id .InProgress, by simp, rfl⟩, ?_, by simp⟩
    intro hn
    exact absurd hd (o6 hn).1
  · rw [htr, hd1, hcn]
    have hne : s.deploy ≠ .atInProgress := by rw [hd]; simp
    exact ⟨o1, o2, o3, o4, fun _ => o5 hne, fun hn => ⟨by simp, (o6 hn).2⟩, by simp⟩
  · rw [htr, hd1, hcn]
    have hne : s.deploy ≠ .atInProgress := by rw [hd]; simp
    exact ⟨o1.snoc_of_not (by simp [Event.isEngineCall]),
      o2.snoc_of_not (by simp [Event.isEngineCall]),
      o3.snoc_of_not (by simp [Event.isDoneOrFailed, Event.kind]),
      o4.snoc_of_not (by simp [Event.kind]), fun _ => exists_mem_snoc _ (o5 hne),
      fun _ => ⟨by simp, by simp⟩, fun _ => by simp⟩
  · rw [htr, hd1, hcn]
    have hne : s.deploy ≠ .atInProgress := by rw [hd]; simp
    refine ⟨o1, o2, o3, o4, fun _ => o5 hne, fun hn => ⟨by simp, (o6 hn).2⟩, ?_⟩
    intro h7
    have he : err = false := by simpa using h7
    exact o7 (Or.inl (by rw [hd, he]))
  · rw [htr, hd1, hcn]
    have hne : s.deploy ≠ .atInProgress := by rw [hd]; simp
    refine ⟨o1.snoc_of_not (by simp [Event.isEngineCall]),
      o2.snoc_of_not (by simp [Event.isEngineCall]),
      o3.snoc_of_not (by simp [Event.isDoneOrFailed, Event.kind]),
      o4.snoc_of_not (by simp [Event.kind]), fun _ => exists_mem_snoc _ (o5 hne),
      fun hn => ⟨by simp, List.mem_append_left _ (o6 hn).2⟩, ?_⟩
    intro h7
    have he : err = false := by simpa using h7
    exact List.mem_append_left _ (o7 (Or.inl (by rw [hd, he])))
  · rw [htr, hd1, hcn]
    have hne : s.deploy ≠ .atInProgress := by rw [hd]; simp
    refine ⟨o1.snoc_of_not (by simp [Event.isEngineCall]),
      o2.snoc_of_not (by simp [Event.isEngineCall]),
      o3.snoc fun _ => o5 hne, o4.snoc ?_, fun _ => exists_mem_snoc _ (o5 hne),
      fun hn => ⟨by simp, List.mem_append_left _ (o6 hn).2⟩, by simp⟩
    intro hk
    have he : err = false := by
      cases err
      · rfl
      · simp [Event.kind] at hk
    exact ⟨_, o7 (Or.inr (by rw [hd, he])), rfl⟩
  · rw [htr, hd1, hcn]
    exact ⟨o1, o2, o3, o4, o5, o6, o7⟩
  · rw [htr, hd1, hcn]
    exact ⟨o1.snoc_of_not (by simp [Event.isEngineCall]),
      o2.snoc_of_not (by simp [Event.isEngineCall]),
      o3.snoc_of_not (by simp [Event.isDoneOrFailed, Event.kind]),
      o4.snoc_of_not (by simp [Event.kind]), fun hn => exists_mem_snoc _ (o5 hn),
      fun hn => ⟨(o6 hn).1, List.mem_append_left _ (o6 hn).2⟩,
      fun h7 => List.mem_append_left _ (o7 h7)⟩
  · have hsome : s.container ≠ none := by rw [hsc]; simp
    obtain ⟨hne, hgo⟩ := o6 hsome
    rw [htr, hd1, hcn]
    exact ⟨o1.snoc fun _ => o5 hne, o2.snoc fun _ => ⟨_, hgo, rfl⟩,
      o3.snoc_of_not (by cases c <;> simp [Event.isDoneOrFailed, Event.kind]),
      o4.snoc_of_not (by cases c <;> simp [Event.kind]),
      fun hn => exists_mem_snoc _ (o5 hn),
      fun _ => ⟨hne, List.mem_append_left _ hgo⟩,
      fun h7 => List.mem_append_left _ (o7 h7)⟩

/-- A trace without events of the later kind is in order. -/
theorem Precedes.of_forall_not {p q : Event → Prop} {tr : List Event}
    (h : ∀ e ∈ tr, ¬ q e) : Precedes p q tr := by
  intro pre e post hsplit hq
  exact absurd hq (h e (by rw [hsplit]; simp))

/-- Every step keeps the captured variables and reports for them only. -/
theorem reports_step (env : Env) (pid : String) (task : Task) (s : Sys) (l : Label) (s1 : Sys)
    (hi : s.pid = pid ∧ s.task = task ∧
      ∀ p t st, Event.report p t st ∈ s.trace → p = pid ∧ t = task.Id)
    (h : step env s l = some s1) :
    s1.pid = pid ∧ s1.task = task ∧
      ∀ p t st, Event.report p t st ∈ s1.trace → p = pid ∧ t = task.Id := by
  obtain ⟨hp, ht, hc⟩ := step_cases h
  obtain ⟨i1, i2, i3⟩ := hi
  refine ⟨hp.trans i1, ht.trans i2, ?_⟩
  intro p t st hm
  rcases hc with ⟨-, -, -, -, -, htr⟩ | ⟨-, -, -, -, -, -, htr⟩ |
    ⟨c, -, -, -, -, -, -, htr⟩ | ⟨err, -, -, -, -, -, -, htr⟩ |
    ⟨err, -, -, -, -, -, -, htr⟩ | ⟨err, -, -, -, -, -, htr⟩ |
    ⟨-, -, -, -, -, htr⟩ | ⟨-, -, -, -, -, htr⟩ | ⟨c, cs, -, -, -, -, -, htr⟩ <;>
  · rw [htr] at hm
    try simp only [List.mem_append, List.mem_singleton, Event.report.injEq, reduceCtorEq,
      or_false] at hm
    first
      | exact i3 p t st hm
      | (rcases hm with hm | ⟨rfl, rfl, -⟩
         · exact i3 p t st hm
         · exact ⟨i1, by rw [i2]⟩)

/-- What holds of every dispatch, under every schedule. -/
theorem dispatch_inv {env : Env} {body : String} {sched : List Label} {s : Sys}
    (h : dispatch env body sched = some s) :
    DeployInv env s ∧ TimerInv s ∧ OrderInv s ∧
    s.pid = (env.decodeWebhook body).1.Payload.PipelineId ∧
    env.fetchTask (env.decodeWebhook body).1.Payload.PipelineId
      (env.decodeWebhook body).1.Payload.TaskId = .response 200 s.task ∧
    ∀ p t st, Event.report p t st ∈ s.trace → p = s.pid ∧ t = s.task.Id := by
  obtain ⟨s0, hsp, hr, hf, hd, hcn, htm, htr⟩ := dispatch_start h
  have hpid : s0.pid = (env.decodeWebhook body).1.Payload.PipelineId := by
    obtain ⟨-, s1, h1, h2, -⟩ := handler_of_fetch_ok env body s0.task hf
    rw [hsp] at h1
    cases h1
    exact h2
  have hkind : ∀ e ∈ s0.trace, e.kind = .fetch ∨ e.kind = .armTimer := by
    intro e he
    rw [htr] at he
    by_cases hpos : s0.task.Timeout > 0
    · simp [hpos] at he
      rcases he with rfl | rfl <;> simp [Event.kind]
    · simp [hpos] at he
      subst he
      simp [Event.kind]
  have hst : statuses s0.trace = [] := by
    rw [htr]
    by_cases hpos : s0.task.Timeout > 0 <;> simp [hpos, statuses, Event.statusOf]
  have hD : DeployInv env s0 := by
    unfold DeployInv
    rw [hd]
    simp [deployStatuses, hst]
  have hT : TimerInv s0 := by
    refine ⟨by rw [hst, htm]; by_cases hpos : s0.task.Timeout > 0 <;> simp [hpos], ?_, ?_, ?_⟩
    · rw [htm]
      by_cases hpos : s0.task.Timeout > 0 <;> simp [hpos]
    · intro hz e he
      rw [htr] at he
      have hz1 : ¬ s0.task.Timeout > 0 := hz
      simp [hz1] at he
      subst he
      simp [Event.kind]
    · intro hpos
      have hpos1 : s0.task.Timeout > 0 := hpos
      rw [htr]
      simp [hpos1]
  have hO : OrderInv s0 := by
    refine ⟨.of_forall_not ?_, .of_forall_not ?_, .of_forall_not ?_, .of_forall_not ?_,
      fun hn => absurd hd hn, fun hn => absurd hcn hn, by rw [hd]; simp⟩
    · rintro e he ⟨c, rfl⟩
      rcases hkind _ he with hk | hk <;> cases c <;> simp [Event.kind] at hk
    · rintro e he ⟨c, rfl⟩
      rcases hkind _ he with hk | hk <;> cases c <;> simp [Event.kind] at hk
    · rintro e he (hq | hq) <;> rcases hkind _ he with hk | hk <;> rw [hk] at hq <;> cases hq
    · intro e he hq
      rcases hkind _ he with hk | hk <;> rw [hk] at hq <;> cases hq
  have hR : s0.pid = s0.pid ∧ s0.task = s0.task ∧
      ∀ p t st, Event.report p t st ∈ s0.trace → p = s0.pid ∧ t = s0.task.Id := by
    refine ⟨rfl, rfl, ?_⟩
    intro p t st hm
    rcases hkind _ hm with hk | hk <;> simp [Event.kind] at hk
  have r1 := run_invariant env (DeployInv env) (DeployInv_step env) sched s0 s hD hr
  have r2 := run_invariant env TimerInv (TimerInv_step env) sched s0 s hT hr
  have r3 := run_invariant env OrderInv (OrderInv_step env) sched s0 s hO hr
  obtain ⟨r4, r5, r6⟩ := run_invariant env _ (reports_step env s0.pid s0.task) sched s0 s hR hr
  refine ⟨r1, r2, r3, r4.trans hpid, by rw [r5]; exact hf, ?_⟩
  intro p t st hm
  rw [r4, r5]
  exact r6 p t st hm

/-- A status other than `TimedOut` is reported as often as the deploy path reports it. -/
theorem count_deployStatuses (tr : List Event) (st : TaskStatus) (h : st ≠ .TimedOut) :
    (statuses tr).count st = (deployStatuses tr).count st := by
  unfold deployStatuses
  rw [List.count_filter]
  simpa using h

/-! ## The status reported by the deploy path -/

/-- C1 fails as stated: the image pull fails, `StartContainer` returns early without create or
start, and the deploy path has finished with the report `Done`. -/
theorem C1_counterexample :
    (StartContainer enginePullFails exConfig).2 = false ∧
    ((dispatch (exEnv 0 enginePullFails) "ok"
        [.deploy, .deploy, .container, .container, .container, .deploy, .deploy]).map
      fun s => (s.deploy, s.container.map List.length, s.trace.map Event.kind)) =
      some (.finished, some 0,
        [.fetch, .status .InProgress, .goStartContainer, .stop, .remove, .pull,
          .status .Done]) := by
  decide

/-- C1, as the code has it: in every execution of a dispatch, the deploy path reports `Failed`
exactly when it has finished and `DoTask` returned an error, that is when the
task configuration does not re-encode as a `DeployConfig`, and it reports `Done`
exactly when it has finished and `DoTask` returned `nil`; the result of `DoTask`
does not depend on the answers of the container engine. -/
theorem C1_terminal_status (env : Env) (body : String) (sched : List Label) (s : Sys)
    (h : dispatch env body sched = some s) :
    (.Failed ∈ statuses s.trace ↔ s.deploy = .finished ∧ DoTask env s.task = none) ∧
    (.Done ∈ statuses s.trace ↔ s.deploy = .finished ∧ (DoTask env s.task).isSome = true) ∧
    (∀ eng, DoTask { env with engine := eng } s.task = DoTask env s.task) := by
  obtain ⟨hD, -⟩ := dispatch_inv h
  have hF : TaskStatus.Failed ∈ statuses s.trace ↔ TaskStatus.Failed ∈ deployStatuses s.trace := by
    simp [deployStatuses]
  have hDn : TaskStatus.Done ∈ statuses s.trace ↔ TaskStatus.Done ∈ deployStatuses s.trace := by
    simp [deployStatuses]
  rw [hF, hDn]
  unfold DeployInv at hD
  refine ⟨?_, ?_, fun _ => rfl⟩
  · cases hd : s.deploy <;> rw [hd] at hD <;> simp only [] at hD
    · simp [hD]
    · simp [hD]
    · simp [hD.1]
    · simp [hD.1]
    · cases hdo : DoTask env s.task <;> simp [hD, terminalStatus, hdo]
  · cases hd : s.deploy <;> rw [hd] at hD <;> simp only [] at hD
    · simp [hD]
    · simp [hD]
    · simp [hD.1]
    · simp [hD.1]
    · cases hdo : DoTask env s.task <;> simp [hD, terminalStatus, hdo]

/-- C1 on the dispatch whose image pull fails. -/
theorem C1_terminal_status_witness :
    ∃ s, dispatch (exEnv 0 enginePullFails) "ok"
        [.deploy, .deploy, .container, .container, .container, .deploy, .deploy] = some s ∧
      (.Failed ∈ statuses s.trace ↔
        s.deploy = .finished ∧ DoTask (exEnv 0 enginePullFails) s.task = none) ∧
      (.Done ∈ statuses s.trace ↔
        s.deploy = .finished ∧ (DoTask (exEnv 0 enginePullFails) s.task).isSome = true) ∧
      (∀ eng, DoTask { exEnv 0 enginePullFails with engine := eng } s.task =
        DoTask (exEnv 0 enginePullFails) s.task) := by
  have hs : (dispatch (exEnv 0 enginePullFails) "ok"
      [.deploy, .deploy, .container, .container, .container, .deploy, .deploy]).isSome = true := by
    decide
  obtain ⟨s, hs⟩ := Option.isSome_iff_exists.1 hs
  exact ⟨s, hs, C1_terminal_status _ _ _ s hs⟩

/-! ## How many statuses a dispatch reports -/

/-- How often the deploy path has reported each status, from what it has reported. -/
theorem deploy_counts {env : Env} {s : Sys} (hD : DeployInv env s) :
    (statuses s.trace).count .InProgress ≤ 1 ∧
    (statuses s.trace).count .Done + (statuses s.trace).count .Failed ≤ 1 ∧
    (statuses s.trace).count .Pending = 0 ∧
    (s.deploy = .finished →
      (statuses s.trace).count .InProgress = 1 ∧
      (statuses s.trace).count .Done + (statuses s.trace).count .Failed = 1) := by
  rw [count_deployStatuses _ .InProgress (by decide), count_deployStatuses _ .Done (by decide),
    count_deployStatuses _ .Failed (by decide), count_deployStatuses _ .Pending (by decide)]
  unfold DeployInv at hD
  refine ⟨?_, ?_, ?_, ?_⟩
  · cases hd : s.deploy <;> rw [hd] at hD <;> simp only [] at hD
    · simp [hD]
    · simp [hD]
    · simp [hD.1]
    · simp [hD.1]
    · cases hdo : DoTask env s.task <;> simp [hD, terminalStatus, hdo]
  · cases hd : s.deploy <;> rw [hd] at hD <;> simp only [] at hD
    · simp [hD]
    · simp [hD]
    · simp [hD.1]
    · simp [hD.1]
    · cases hdo : DoTask env s.task <;> simp [hD, terminalStatus, hdo]
  · cases hd : s.deploy <;> rw [hd] at hD <;> simp only [] at hD
    · simp [hD]
    · simp [hD]
    · simp [hD.1]
    · simp [hD.1]
    · cases hdo : DoTask env s.task <;> simp [hD, terminalStatus, hdo]
  · intro hd
    rw [hd] at hD
    simp only [] at hD
    cases hdo : DoTask env s.task <;> simp [hD, terminalStatus, hdo]

/-- A timer that is absent or was stopped before it fired stays so. -/
theorem quiet_timer_step (env : Env) (s : Sys) (l : Label) (s1 : Sys)
    (hi : s.timer = .stopped ∨ s.timer = .absent) (h : step env s l = some s1) :
    s1.timer = .stopped ∨ s1.timer = .absent := by
  obtain ⟨-, -, hc⟩ := step_cases h
  rcases hc with ⟨-, -, -, htm, -⟩ | ⟨-, -, -, -, htm, -⟩ |
    ⟨c, -, -, -, -, htm, -⟩ | ⟨err, -, -, -, -, htm, -⟩ |
    ⟨err, -, -, -, -, htm, -⟩ | ⟨err, -, -, -, htm, -⟩ |
    ⟨-, har, -⟩ | ⟨-, hfi, -⟩ | ⟨c, cs, -, -, -, -, htm, -⟩
  · rw [htm]; exact hi
  · rw [htm]; exact hi
  · rw [htm]; exact hi
  · rw [htm]; exact Or.inr rfl
  · rw [htm]
    rcases hi with hi | hi <;> rw [hi] <;> simp [TimerSt.stop]
  · rw [htm]; exact hi
  · rw [har] at hi; simp at hi
  · rw [hfi] at hi; simp at hi
  · rw [htm]; exact hi

/-- After `timer.Stop()` on a timer that has not fired, `TimedOut` is never reported, and the
finished deploy path has reported the only terminal status. -/
theorem no_TimedOut_after_Stop (env : Env) (s : Sys) (hD : DeployInv env s) (hT : TimerInv s)
    (err : Bool) (hd : s.deploy = .atStop err) (hnf : s.timer ≠ .fired) (hnr : s.timer ≠ .ran)
    (sched : List Label) (s2 : Sys) (hr : run env s (.deploy :: sched) = some s2) :
    .TimedOut ∉ statuses s2.trace ∧
    (s2.deploy = .finished →
      (statuses s2.trace).count .Done + (statuses s2.trace).count .Failed +
        (statuses s2.trace).count .TimedOut = 1) := by
  simp only [run] at hr
  cases hs1 : step env s .deploy with
  | none => rw [hs1] at hr; cases hr
  | some s1 =>
    rw [hs1] at hr
    have hr1 : run env s1 sched = some s2 := hr
    have hq1 : s1.timer = .stopped ∨ s1.timer = .absent := by
      obtain ⟨-, -, hc⟩ := step_cases hs1
      rcases hc with ⟨-, h0, -⟩ | ⟨-, h0, -⟩ | ⟨c, -, h0, -⟩ | ⟨e, -, -, -, -, htm, -⟩ |
        ⟨e, -, -, -, -, htm, -⟩ | ⟨e, -, h0, -⟩ | ⟨h0, -⟩ | ⟨h0, -⟩ | ⟨c, cs, h0, -⟩
      · rw [hd] at h0; cases h0
      · rw [hd] at h0; cases h0
      · rw [hd] at h0; cases h0
      · exact Or.inr htm
      · rw [htm]
        cases htm0 : s.timer <;> simp [TimerSt.stop] <;> simp_all
      · rw [hd] at h0; cases h0
      · cases h0
      · cases h0
      · cases h0
    have hD2 := run_invariant env (DeployInv env) (DeployInv_step env) sched s1 s2
      (DeployInv_step env s .deploy s1 hD hs1) hr1
    have hT2 := run_invariant env TimerInv (TimerInv_step env) sched s1 s2
      (TimerInv_step env s .deploy s1 hT hs1) hr1
    have hq2 := run_invariant env _ (quiet_timer_step env) sched s1 s2 hq1 hr1
    have hz : (statuses s2.trace).count .TimedOut = 0 := by
      rw [hT2.1]
      rcases hq2 with hq | hq <;> rw [hq] <;> simp
    refine ⟨List.count_eq_zero.1 hz, fun hf => ?_⟩
    rw [hz, ((deploy_counts hD2).2.2.2 hf).2]

/-- C2 fails as stated: with a timeout of one minute, the timer fires and its job reports
`TimedOut` while the deploy path is between its two reports; `timer.Stop()` comes
too late and the deploy path reports `Done` as well: two terminal statuses. -/
theorem C2_counterexample :
    ((dispatch (exEnv 1 engineOk) "ok"
        [.deploy, .fire, .job, .deploy, .deploy, .deploy]).map
      fun s => (s.deploy, s.timer, statuses s.trace)) =
      some (.finished, .ran, [.InProgress, .TimedOut, .Done]) := by
  decide

/-- C2, as the code has it: in every execution of a dispatch, `InProgress` is reported at most
once, one of `Done` and `Failed` at most once, `TimedOut` at most once and
`Pending` never; once the deploy path has finished, `InProgress` has been reported
exactly once and exactly one of `Done` and `Failed`; the report of `Done` or
`Failed` comes after the report of `InProgress`; every report is for the pipeline
and the task of this dispatch. `TimedOut` has been reported exactly when the job
of the timer has run, so a finished deploy path leaves exactly one terminal
status unless the job has run, and two if it has. When the deploy path reaches
`timer.Stop()` and the timer has not fired, then under every continuation
`TimedOut` is never reported and the finished deploy path leaves exactly one
terminal status. -/
theorem C2_reported_statuses (env : Env) (body : String) (sched : List Label) (s : Sys)
    (h : dispatch env body sched = some s) :
    (statuses s.trace).count .InProgress ≤ 1 ∧
    (statuses s.trace).count .Done + (statuses s.trace).count .Failed ≤ 1 ∧
    (statuses s.trace).count .TimedOut ≤ 1 ∧
    (statuses s.trace).count .Pending = 0 ∧
    (s.deploy = .finished →
      (statuses s.trace).count .InProgress = 1 ∧
      (statuses s.trace).count .Done + (statuses s.trace).count .Failed = 1) ∧
    Precedes Event.isInProgress Event.isDoneOrFailed s.trace ∧
    (∀ p t st, Event.report p t st ∈ s.trace → p = s.pid ∧ t = s.task.Id) ∧
    ((statuses s.trace).count .TimedOut = if s.timer = .ran then 1 else 0) ∧
    (s.deploy = .finished →
      (statuses s.trace).count .Done + (statuses s.trace).count .Failed +
        (statuses s.trace).count .TimedOut = if s.timer = .ran then 2 else 1) ∧
    (∀ err, s.deploy = .atStop err → s.timer ≠ .fired → s.timer ≠ .ran →
      ∀ sched2 s2, run env s (.deploy :: sched2) = some s2 →
        .TimedOut ∉ statuses s2.trace ∧
        (s2.deploy = .finished →
          (statuses s2.trace).count .Done + (statuses s2.trace).count .Failed +
            (statuses s2.trace).count .TimedOut = 1)) := by
  obtain ⟨hD, hT, hO, -, -, hR⟩ := dispatch_inv h
  obtain ⟨c1, c2, c3, c4⟩ := deploy_counts hD
  have hT1 : (statuses s.trace).count .TimedOut ≤ 1 := by
    rw [hT.1]
    split <;> simp
  refine ⟨c1, c2, hT1, c3, c4, hO.2.2.1, hR, hT.1, ?_, ?_⟩
  · intro hf
    rw [(c4 hf).2, hT.1]
    split <;> rfl
  · intro err hd hnf hnr sched2 s2 hr
    exact no_TimedOut_after_Stop env s hD hT err hd hnf hnr sched2 s2 hr

/-- C2 on the dispatch that stands before `timer.Stop()` with its timer armed. -/
theorem C2_reported_statuses_witness :
    ∃ s, dispatch (exEnv 1 engineOk) "ok" [.deploy, .deploy] = some s ∧
      s.deploy = .atStop false ∧ s.timer = .armed ∧
      ∀ sched2 s2, run (exEnv 1 engineOk) s (.deploy :: sched2) = some s2 →
        .TimedOut ∉ statuses s2.trace ∧
        (s2.deploy = .finished →
          (statuses s2.trace).count .Done + (statuses s2.trace).count .Failed +
            (statuses s2.trace).count .TimedOut = 1) := by
  have hs : (dispatch (exEnv 1 engineOk) "ok" [.deploy, .deploy]).isSome = true := by
    decide
  obtain ⟨s, hs⟩ := Option.isSome_iff_exists.1 hs
  have hm : ((dispatch (exEnv 1 engineOk) "ok" [.deploy, .deploy]).map
      fun s => (s.deploy, s.timer)) = some (.atStop false, .armed) := by
    decide
  rw [hs] at hm
  simp only [Option.map_some', Option.some.injEq, Prod.mk.injEq] at hm
  obtain ⟨hd, htm⟩ := hm
  exact ⟨s, hs, hd, htm,
    (C2_reported_statuses _ _ _ s hs).2.2.2.2.2.2.2.2.2 false hd (by rw [htm]; decide)
      (by rw [htm]; decide)⟩

/-! ## The timer -/

/-- C6: a dispatch is started for the task the lookup returned; when its timeout is not
positive (zero, or absent and so zero) there is no timer, no timer is armed or
stopped and `TimedOut` is never reported, under any schedule; an armed timer or a
`TimedOut` report means a positive timeout, and with a positive timeout the timer
is armed for that many minutes. -/
theorem C6_timer_only_with_timeout (env : Env) (body : String) (sched : List Label) (s : Sys)
    (h : dispatch env body sched = some s) :
    env.fetchTask (env.decodeWebhook body).1.Payload.PipelineId
      (env.decodeWebhook body).1.Payload.TaskId = .response 200 s.task ∧
    (¬ 0 < s.task.Timeout →
      s.timer = .absent ∧ (∀ e ∈ s.trace, e.kind ≠ .armTimer ∧ e.kind ≠ .stopTimer) ∧
      .TimedOut ∉ statuses s.trace) ∧
    ((∃ e ∈ s.trace, e.kind = .armTimer) → 0 < s.task.Timeout) ∧
    (.TimedOut ∈ statuses s.trace → 0 < s.task.Timeout) ∧
    (0 < s.task.Timeout → .armTimer s.task.Timeout ∈ s.trace ∧ s.timer ≠ .absent) := by
  obtain ⟨-, ⟨t1, t2, t3, t4⟩, -, -, hf, -⟩ := dispatch_inv h
  have hno : ¬ 0 < s.task.Timeout → TaskStatus.TimedOut ∉ statuses s.trace := by
    intro hz
    have hab : s.timer = .absent := t2.2 hz
    rw [hab] at t1
    exact List.count_eq_zero.1 (by simpa using t1)
  refine ⟨hf, fun hz => ⟨t2.2 hz, t3 hz, hno hz⟩, ?_, ?_, fun hp => ⟨t4 hp, ?_⟩⟩
  · rintro ⟨e, he, hk⟩
    by_contra hz
    exact (t3 hz e he).1 hk
  · intro hm
    by_contra hz
    exact hno hz hm
  · intro hab
    exact t2.1 hab hp

/-- C6 on a task without timeout, run to the end of the deploy path. -/
theorem C6_timer_only_with_timeout_witness :
    ∃ s, dispatch (exEnv 0 engineOk) "ok" [.deploy, .deploy, .deploy, .deploy] = some s ∧
      s.task.Timeout = 0 ∧ s.timer = .absent ∧
      (∀ e ∈ s.trace, e.kind ≠ .armTimer ∧ e.kind ≠ .stopTimer) ∧
      .TimedOut ∉ statuses s.trace := by
  have hs : (dispatch (exEnv 0 engineOk) "ok" [.deploy, .deploy, .deploy, .deploy]).isSome =
      true := by
    decide
  obtain ⟨s, hs⟩ := Option.isSome_iff_exists.1 hs
  have hc := C6_timer_only_with_timeout _ _ _ s hs
  have ht : s.task.Timeout = 0 := by
    have h1 := hc.1
    simp only [exEnv, FetchResult.response.injEq, true_and] at h1
    rw [← h1]
  exact ⟨s, hs, ht, hc.2.1 (by rw [ht]; decide)⟩

/-! ## The order of the reports and the engine calls -/

/-- C9 fails as stated: `DoTask` returns as soon as it has started `StartContainer` in a
goroutine of its own, so the deploy path can report `Done` before the first engine
call of the deploy. -/
theorem C9_counterexample :
    ((dispatch (exEnv 0 engineOk) "ok"
        [.deploy, .deploy, .deploy, .deploy, .container, .container, .container,
          .container, .container]).map
      fun s => s.trace.map Event.kind) =
      some [.fetch, .status .InProgress, .goStartContainer, .status .Done, .stop, .remove,
        .pull, .create, .start] := by
  decide

/-- C9, as the code has it: in every execution of a dispatch, every engine call comes after the
report of `InProgress` and after `DoTask` has started `StartContainer`; the report
of `Done` or `Failed` comes after the report of `InProgress`, and the report of
`Done` after `DoTask` has started `StartContainer`. The terminal report is not
ordered with the engine calls. -/
theorem C9_report_order (env : Env) (body : String) (sched : List Label) (s : Sys)
    (h : dispatch env body sched = some s) :
    Precedes Event.isInProgress Event.isEngineCall s.trace ∧
    Precedes (fun e => e = .goStartContainer) Event.isEngineCall s.trace ∧
    Precedes Event.isInProgress Event.isDoneOrFailed s.trace ∧
    Precedes (fun e => e = .goStartContainer) (fun e => e.kind = .status .Done) s.trace := by
  obtain ⟨-, -, ⟨o1, o2, o3, o4, -⟩, -⟩ := dispatch_inv h
  exact ⟨o1, o2, o3, o4⟩

/-- C9 on the dispatch whose deploy path finishes before `StartContainer` begins. -/
theorem C9_report_order_witness :
    ∃ s, dispatch (exEnv 0 engineOk) "ok"
        [.deploy, .deploy, .deploy, .deploy, .container, .container, .container,
          .container, .container] = some s ∧
      Precedes Event.isInProgress Event.isEngineCall s.trace ∧
      Precedes (fun e => e = .goStartContainer) Event.isEngineCall s.trace ∧
      Precedes Event.isInProgress Event.isDoneOrFailed s.trace ∧
      Precedes (fun e => e = .goStartContainer) (fun e => e.kind = .status .Done) s.trace := by
  have hs : (dispatch (exEnv 0 engineOk) "ok"
      [.deploy, .deploy, .deploy, .deploy, .container, .container, .container,
        .container, .container]).isSome = true := by
    decide
  obtain ⟨s, hs⟩ := Option.isSome_iff_exists.1 hs
  exact ⟨s, hs, C9_report_order _ _ _ s hs⟩

end Launcher
